import Mathlib

/-!
Verification of the `mdsn/irc` chat client against its design document.

The development shallowly embeds the three subsystems the claims are about:

* `src/protocol.rs` — the wire-format codec (`parse_msg`, `parse_cmd`,
  `parse_pfx`): pure string functions.  Rust panics (out-of-bounds `Vec`
  indexing, `unwrap` of `None`, out-of-range string slicing) are modelled by
  `Option`, with `none` marking an uncaught panic.
* `src/command.rs` — the slash-command interpreter (`make_cmd`, `parse_input`).
* `src/ui.rs` / `src/client.rs` — the conversation model (`InnerUI` and its
  operations) and the network-event dispatcher (`handleEvent`).

Rust strings are modelled as Lean `String`s viewed as sequences of characters
(`String.data`); byte-level UTF-8 boundary panics of Rust slicing are not
modelled (every string a claim touches is ASCII, where the two notions agree).
All string primitives used by the source (`split_whitespace`, `starts_with`,
`contains`, `join`, `trim`, first-match `position`/`find`) are defined below by
structural recursion on the character list so that every definition evaluates
inside the kernel.
-/

namespace Irc

/-! ## String primitives (models of the Rust `str` operations used) -/

/-- Model of `str::split_whitespace` on a character list: maximal runs of
non-whitespace characters, runs of whitespace discarded.  `acc` holds the
(reversed) current token. -/
def wordsAux (acc : List Char) : List Char → List (List Char)
  | [] => if acc.isEmpty then [] else [acc.reverse]
  | c :: cs =>
    if c.isWhitespace then
      if acc.isEmpty then wordsAux [] cs else acc.reverse :: wordsAux [] cs
    else wordsAux (c :: acc) cs

/-- Model of `str::split_whitespace` collected into a `Vec<&str>`. -/
def words (s : String) : List String :=
  (wordsAux [] s.data).map String.mk

/-- Model of `[&str]::join(" ")`. -/
def joinSpace : List String → String
  | [] => ""
  | [s] => s
  | s :: rest => s ++ " " ++ joinSpace rest

/-- Model of `str::starts_with(c)` for a single character. -/
def startsC (s : String) (c : Char) : Bool :=
  match s.data with
  | [] => false
  | a :: _ => a = c

/-- Model of `str::contains(c)` for a single character. -/
def containsC (s : String) (c : Char) : Bool :=
  s.data.contains c

/-- Model of `&s[1..]` on a string slice: dropping the first character.
In Rust this panics when the slice is empty (byte index 1 out of range). -/
def strip1 (s : String) : Option String :=
  match s.data with
  | [] => none
  | _ :: cs => some (String.mk cs)

/-- Model of `str::splitn(2, sep).next()`: the part before the first
occurrence of `sep` (the whole string when `sep` is absent). -/
def takeUntil (sep : Char) (s : String) : String :=
  String.mk (s.data.takeWhile (fun c => c ≠ sep))

/-- Model of the second element of `str::splitn(2, sep)`: everything after the
first occurrence of `sep`.  Empty when `sep` is absent (the Rust iterator
yields `None` there; callers guard with `contains`). -/
def dropThrough (sep : Char) (s : String) : String :=
  String.mk ((s.data.dropWhile (fun c => c ≠ sep)).drop 1)

/-- Model of `str::trim` (whitespace stripped from both ends). -/
def trimS (s : String) : String :=
  String.mk (((s.data.dropWhile Char.isWhitespace).reverse.dropWhile
    Char.isWhitespace).reverse)

/-- First index satisfying `p`: model of `Iterator::position`. -/
def findIdxP (p : α → Bool) : List α → Option Nat
  | [] => none
  | a :: as => if p a then some 0 else (findIdxP p as).map (· + 1)

/-- Model of `Vec` indexing `v[i]`, which panics when out of bounds. -/
def getp (ps : List String) (i : Nat) : Option String :=
  ps.get? i

/-- Model of the slice `&v[n..]`, which panics when `n > v.len()`. -/
def sliceFrom (ps : List String) (n : Nat) : Option (List String) :=
  if n ≤ ps.length then some (ps.drop n) else none

theorem findIdxP_eq_none {p : α → Bool} {l : List α}
    (h : ∀ a ∈ l, p a = false) : findIdxP p l = none := by
  induction l with
  | nil => rfl
  | cons a as ih =>
    simp [findIdxP, h a (List.mem_cons_self a as),
      ih (fun b hb => h b (List.mem_cons_of_mem a hb))]

/-! ## Wire-format codec (`src/protocol.rs`)

`Pfx` models the source type `Prefix`, `parse_pfx` the source function
`parse_prefix` (renamed for tooling reasons only).  `ServCmd`, `MsgTarget`,
`ServMsg`, `parse_cmd` and `parse_msg` keep their source names.  A result of
`none` models a Rust panic (uncaught, so the process crashes). -/

/-- `MsgTarget` from protocol.rs. -/
inductive MsgTarget
  | Chan (name : String)
  | User (nick : String)
  | Serv (name : String)
  deriving DecidableEq, Repr

/-- `Prefix` from protocol.rs (renamed `Pfx` here). -/
inductive Pfx
  | Server (name : String)
  | User (nick user host : String)
  deriving DecidableEq, Repr

/-- `ServCmd` from protocol.rs: one variant per recognized command or numeric
reply, plus `Unknown`.  Note: the enum has no variant for NICK, QUIT or ERROR
(the file's own TODO comment records that QUIT parsing is missing). -/
inductive ServCmd
  | Join (chan : String)
  | PrivMsg (target : MsgTarget) (msg : String)
  | Part (chan msg : String)
  | Notice (msg : String)
  | RplWelcome (msg : String)                            -- 001
  | RplYourHost (msg : String)                           -- 002
  | RplCreated (msg : String)                            -- 003
  | RplMyInfo (version umodes cmodes cmodes_param : String) -- 004
  | RplISupport (msg : String)                           -- 005
  | RplLuserClient (msg : String)                        -- 251
  | RplLuserOp (msg : String)                            -- 252
  | RplLuserUnknown (msg : String)                       -- 253
  | RplLuserChannels (msg : String)                      -- 254
  | RplLuserMe (msg : String)                            -- 255
  | RplLocalUsers (msg : String)                         -- 265
  | RplGlobalUsers (msg : String)                        -- 266
  | NameReply (sym : Char) (chan : String) (nicks : List String) -- 353
  | EndOfNames (msg : String)                            -- 366
  | MOTDStart (msg : String)                             -- 375
  | MOTD (msg : String)                                  -- 372
  | MOTDEnd (msg : String)                               -- 376
  | DisplayedHost (msg : String)                         -- 396
  | Unknown (code : String)
  deriving DecidableEq, Repr

/-- `ServMsg` from protocol.rs. -/
structure ServMsg where
  pfx : Option Pfx        -- field `prefix` in the source
  command : ServCmd
  params : List String
  deriving DecidableEq, Repr

/-- `parse_prefix` from protocol.rs.  When the prefix contains both `!` and
`@` it is split as `nick!user@host`; the `unwrap` of the part after `@`
panics (`none`) when every `@` precedes the first `!`. -/
def parse_pfx (p : String) : Option Pfx :=
  if containsC p '!' && containsC p '@' then
    let nick := takeUntil '!' p
    let rest := dropThrough '!' p
    if containsC rest '@' then
      some (Pfx.User nick (takeUntil '@' rest) (dropThrough '@' rest))
    else
      none
  else
    some (Pfx.Server p)

/-- `parse_cmd` from protocol.rs.  Every `params[i]` / `&s[1..]` /
`&params[n..]` of the source is a panicking operation, modelled with
`getp` / `strip1` / `sliceFrom` in the source's evaluation order. -/
def parse_cmd (cmd : String) (params : List String) :
    Option (ServCmd × List String) :=
  match cmd with
  | "JOIN" => do
    let p0 ← getp params 0
    let chan ← strip1 p0
    pure (ServCmd.Join chan, [])
  | "PRIVMSG" => do
    let p0 ← getp params 0
    let target := if startsC p0 '#' then MsgTarget.Chan p0 else MsgTarget.User p0
    let p1 ← getp params 1
    let msg ← strip1 p1
    pure (ServCmd.PrivMsg target msg, [])
  | "PART" =>
    if params.length = 1 then do
      let p0 ← getp params 0
      let chan ← strip1 p0
      pure (ServCmd.Part chan "", [])
    else do
      let p0 ← getp params 0
      let p1 ← getp params 1
      let msg ← strip1 p1
      pure (ServCmd.Part p0 msg, [])
  | "NOTICE" => do
    let p1 ← getp params 1
    let msg ← strip1 p1
    pure (ServCmd.Notice msg, [])
  | "001" => do
    let p1 ← getp params 1
    let msg ← strip1 p1
    pure (ServCmd.RplWelcome msg, [])
  | "002" => do
    let p1 ← getp params 1
    let msg ← strip1 p1
    pure (ServCmd.RplYourHost msg, [])
  | "003" => do
    let p1 ← getp params 1
    let msg ← strip1 p1
    pure (ServCmd.RplCreated msg, [])
  | "004" => do
    -- the source first computes `params[1..].join(" ")` into an unused
    -- binding; only its panic on an empty `params` is observable
    let _ ← sliceFrom params 1
    let p2 ← getp params 2
    let p3 ← getp params 3
    let p4 ← getp params 4
    let p5 ← getp params 5
    let cp ← strip1 p5
    pure (ServCmd.RplMyInfo p2 p3 p4 cp, [])
  | "005" => do
    let rest ← sliceFrom params 1
    pure (ServCmd.RplISupport (joinSpace rest), [])
  | "251" => do
    let p1 ← getp params 1
    let msg ← strip1 p1
    pure (ServCmd.RplLuserClient msg, [])
  | "252" => do
    let rest ← sliceFrom params 1
    pure (ServCmd.RplLuserOp (joinSpace rest), [])
  | "253" => do
    let rest ← sliceFrom params 1
    pure (ServCmd.RplLuserUnknown (joinSpace rest), [])
  | "254" => do
    let rest ← sliceFrom params 1
    pure (ServCmd.RplLuserChannels (joinSpace rest), [])
  | "255" => do
    let p1 ← getp params 1
    let msg ← strip1 p1
    pure (ServCmd.RplLuserMe msg, [])
  | "265" => do
    let p1 ← getp params 1
    let msg ← strip1 p1
    pure (ServCmd.RplLocalUsers msg, [])
  | "266" => do
    let p1 ← getp params 1
    let msg ← strip1 p1
    pure (ServCmd.RplGlobalUsers msg, [])
  | "353" => do
    let p1 ← getp params 1
    let sym ← p1.data.head?          -- `chars().next().unwrap()`
    let p2 ← getp params 2
    let p3 ← getp params 3
    let rest ← strip1 p3
    pure (ServCmd.NameReply sym p2 (words rest), [])
  | "366" => do
    let p1 ← getp params 1
    let p2 ← getp params 2
    let t ← strip1 p2
    pure (ServCmd.EndOfNames (p1 ++ " " ++ t), [])
  | "375" => do
    let p1 ← getp params 1
    let msg ← strip1 p1
    pure (ServCmd.MOTDStart msg, [])
  | "372" => do
    let p1 ← getp params 1
    let msg ← strip1 p1
    pure (ServCmd.MOTD msg, [])
  | "376" => do
    let p1 ← getp params 1
    let msg ← strip1 p1
    pure (ServCmd.MOTDEnd msg, [])
  | "396" => do
    let p2 ← getp params 2
    let t ← strip1 p2
    let p1 ← getp params 1
    pure (ServCmd.DisplayedHost (p1 ++ " " ++ t), [])
  | _ => some (ServCmd.Unknown cmd, params)

/-- The token-level body of `parse_msg` from protocol.rs, applied to the
result of `split_whitespace`.  The two `unwrap`s on the token iterator and
the panics inside `parse_prefix` / `parse_cmd` propagate as `none`. -/
def parse_msg_toks (parts : List String) : Option ServMsg :=
  match parts with
  | [] => none                       -- `parts.clone().next().unwrap()` panics
  | first :: rest0 =>
    let step : Option (Option Pfx × List String) :=
      if startsC first ':' then do
        let stripped ← strip1 first  -- `&p[1..]`; first is a token, nonempty
        let pf ← parse_pfx stripped
        pure (some pf, rest0)
      else
        pure (none, first :: rest0)
    match step with
    | none => none
    | some (pf, afterPfx) =>
      match afterPfx with
      | [] => none                   -- `parts.next().unwrap()` panics
      | cmd :: rest =>
        let params : List String :=
          match findIdxP (fun x => startsC x ':') rest with
          | some i => rest.take i ++ [joinSpace (rest.drop i)]
          | none => []               -- without a `:`-token, params stays empty
        match parse_cmd cmd params with
        | none => none
        | some (command, params) => some ⟨pf, command, params⟩

/-- `parse_msg` from protocol.rs. -/
def parse_msg (msg : String) : Option ServMsg :=
  parse_msg_toks (words msg)

/-! ## Slash-command interpreter (`src/command.rs`) -/

/-- `Cmd` from command.rs.  Note: the enum has no `Nick` variant, although
ui.rs matches on `Cmd::Nick` (the two files are out of step; see the
theorems on claim C6). -/
inductive Cmd
  | Connect (addr : String)
  | Join (chan : String)
  | Quit (msg : String)
  | Msg (line : String)
  | Unsupported (cmd rest : String)
  deriving DecidableEq, Repr

/-- `make_cmd` from command.rs. -/
def make_cmd (cmd rest : String) : Except String Cmd :=
  if cmd = "/connect" then
    if rest = "" then Except.error "No server address provided"
    else Except.ok (Cmd.Connect rest)
  else if cmd = "/join" then
    if rest = "" then Except.error "No channel name provided"
    else Except.ok (Cmd.Join rest)
  else if cmd = "/quit" then
    Except.ok (Cmd.Quit rest)
  else
    Except.ok (Cmd.Unsupported cmd rest)

/-- `parse_input` from command.rs.  `input.find(' ')` is the index of the
first space; `split_at` keeps the space in the right half and `&rest[1..]`
drops it before trimming. -/
def parse_input (input : String) : Except String Cmd :=
  if !startsC input '/' then
    Except.ok (Cmd.Msg input)
  else
    match findIdxP (fun c => c = ' ') input.data with
    | some ix =>
      make_cmd (String.mk (input.data.take ix))
        (trimS (String.mk (input.data.drop (ix + 1))))
    | none => make_cmd input ""

/-! ## Conversation model (`src/ui.rs`)

`Tab`, `TabKind` and `InnerUI` keep their source names; operations are the
methods of `InnerUI` (with `change_to_tab` including the wrapper `UI`
behaviour of logging a diagnostic on a missing tab).  The source indexes
`self.tabs[0]` and `self.tabs[self.cur_tab]` directly — a panic when out of
bounds; the model uses an out-of-bounds-tolerant update (`modifyIdx`) and the
invariant theorems show the indices stay in bounds on reachable states. -/

/-- `TabKind` from ui.rs. -/
inductive TabKind
  | Debug
  | Serv (serv : String)
  | Chan (serv chan : String)
  | Query (serv nick : String)
  deriving DecidableEq, Repr

/-- `Tab` from ui.rs. -/
structure Tab where
  id : TabKind
  input : String
  lines : List String
  deriving DecidableEq, Repr

/-- `Tab::new` from ui.rs. -/
def Tab.new (id : TabKind) : Tab := ⟨id, "", []⟩

/-- `Tab::add_line` from ui.rs (`VecDeque::push_back`). -/
def Tab.add_line (t : Tab) (line : String) : Tab :=
  { t with lines := t.lines ++ [line] }

/-- Update the element at an index, the identity when out of bounds. -/
def modifyIdx (f : α → α) : Nat → List α → List α
  | _, [] => []
  | 0, a :: as => f a :: as
  | n + 1, a :: as => a :: modifyIdx f n as

/-- `InnerUI` from ui.rs. -/
structure InnerUI where
  cur_tab : Nat
  tabs : List Tab
  deriving DecidableEq, Repr

/-- `InnerUI::new` from ui.rs: a single Debug tab, `cur_tab = 0`. -/
def InnerUI.new : InnerUI := ⟨0, [Tab.new TabKind.Debug]⟩

/-- `InnerUI::dbg` from ui.rs: `self.tabs[0].add_line(msg)`. -/
def InnerUI.dbg (ui : InnerUI) (msg : String) : InnerUI :=
  { ui with tabs := modifyIdx (fun t => t.add_line msg) 0 ui.tabs }

/-- The `TabKind` a `MsgTarget` resolves to in `InnerUI::add_msg`. -/
def targetTabId (serv_name : String) (target : MsgTarget) : TabKind :=
  match target with
  | MsgTarget.Chan chan => TabKind.Chan serv_name chan
  | MsgTarget.User nick => TabKind.Query serv_name nick
  | MsgTarget.Serv serv => TabKind.Serv serv

/-- Position of the first tab with the given id: `InnerUI::tab_position`,
also the index used by `InnerUI::find_tab_mut`. -/
def tabPosition (tid : TabKind) : List Tab → Option Nat :=
  findIdxP (fun t => t.id = tid)

/-- The debug-formatted `{target:?}` text in the routing-miss diagnostic
(escaping of quotes inside names is not modelled). -/
def debugTarget : MsgTarget → String
  | MsgTarget.Chan c => "Chan(\"" ++ c ++ "\")"
  | MsgTarget.User n => "User(\"" ++ n ++ "\")"
  | MsgTarget.Serv s => "Serv(\"" ++ s ++ "\")"

/-- The routing-miss diagnostic line of `InnerUI::add_msg`:
`"[{serv_name}] No tab found {target:?} ({msg})"`. -/
def noTabFound (serv_name : String) (target : MsgTarget) (msg : String) :
    String :=
  "[" ++ serv_name ++ "] No tab found " ++ debugTarget target ++
    " (" ++ msg ++ ")"

/-- `InnerUI::add_msg` from ui.rs. -/
def InnerUI.add_msg (ui : InnerUI) (serv_name : String) (target : MsgTarget)
    (msg : String) : InnerUI :=
  let tid := targetTabId serv_name target
  match tabPosition tid ui.tabs with
  | some i => { ui with tabs := modifyIdx (fun t => t.add_line msg) i ui.tabs }
  | none => ui.dbg (noTabFound serv_name target msg)

/-- `UI::add_serv_msg` from ui.rs. -/
def InnerUI.add_serv_msg (ui : InnerUI) (serv_name msg : String) : InnerUI :=
  ui.add_msg serv_name (MsgTarget.Serv serv_name) msg

/-- `InnerUI::add_tab` from ui.rs: unconditional append, no duplicate check. -/
def InnerUI.add_tab (ui : InnerUI) (id : TabKind) : InnerUI :=
  { ui with tabs := ui.tabs ++ [Tab.new id] }

/-- The `Display` instance of `TabKind` from ui.rs. -/
def displayTabKind : TabKind → String
  | TabKind.Debug => "__debug__"
  | TabKind.Serv serv => serv
  | TabKind.Chan _ chan => chan
  | TabKind.Query _ nick => nick

/-- `UI::change_to_tab` from ui.rs (wrapping `InnerUI::change_to_tab`): move
`cur_tab` to the tab's position, or log a diagnostic when it is absent. -/
def InnerUI.change_to_tab (ui : InnerUI) (id : TabKind) : InnerUI :=
  match tabPosition id ui.tabs with
  | some pos => { ui with cur_tab := pos }
  | none => ui.dbg ("change_to_tab: No tab found for " ++ displayTabKind id)

/-- `InnerUI::next_tab` from ui.rs: `(cur_tab + 1) % tabs.len()` (in Rust a
remainder-by-zero panic when `tabs` is empty; `tabs` is provably never
empty). -/
def InnerUI.next_tab (ui : InnerUI) : InnerUI :=
  { ui with cur_tab := (ui.cur_tab + 1) % ui.tabs.length }

/-- `InnerUI::push_input` from ui.rs. -/
def InnerUI.push_input (ui : InnerUI) (c : Char) : InnerUI :=
  let f : Tab → Tab := fun t => { t with input := t.input.push c }
  { ui with tabs := modifyIdx f ui.cur_tab ui.tabs }

/-- `InnerUI::pop_input` from ui.rs (`String::pop`). -/
def InnerUI.pop_input (ui : InnerUI) : InnerUI :=
  let f : Tab → Tab := fun t => { t with input := String.mk t.input.data.dropLast }
  { ui with tabs := modifyIdx f ui.cur_tab ui.tabs }

/-- The state effect of `InnerUI::take_input` from ui.rs (`mem::take` leaves
an empty buffer behind; the returned string is not part of the state). -/
def InnerUI.take_input (ui : InnerUI) : InnerUI :=
  let f : Tab → Tab := fun t => { t with input := "" }
  { ui with tabs := modifyIdx f ui.cur_tab ui.tabs }

/-- The operations that mutate the conversation model (the `InnerUI` methods
of ui.rs; `addTab` and `changeToTab` are the calls made by the `/connect` and
`/join` handlers in `UI::commit_input`). -/
inductive Op
  | addTab (id : TabKind)
  | changeToTab (id : TabKind)
  | nextTab
  | pushInput (c : Char)
  | popInput
  | takeInput
  | addMsg (serv : String) (target : MsgTarget) (msg : String)
  | dbg (msg : String)

/-- Apply one conversation-model operation. -/
def applyOp (ui : InnerUI) : Op → InnerUI
  | Op.addTab id => ui.add_tab id
  | Op.changeToTab id => ui.change_to_tab id
  | Op.nextTab => ui.next_tab
  | Op.pushInput c => ui.push_input c
  | Op.popInput => ui.pop_input
  | Op.takeInput => ui.take_input
  | Op.addMsg serv target msg => ui.add_msg serv target msg
  | Op.dbg msg => ui.dbg msg

/-- States reachable from `InnerUI::new` by a sequence of operations. -/
def run (ops : List Op) : InnerUI :=
  ops.foldl applyOp InnerUI.new

/-! ## Network-event dispatcher (`src/client.rs`)

`handle_network_events` matches on the decoded command.  The match arms of
client.rs name three variants (`Nick`, `Error`, `Motd`) that do not exist in
protocol.rs's `ServCmd`, and destructure `ServMsg` without a `params` field:
client.rs is written against a later revision of the codec.  The dispatcher is
therefore modelled over its own command type `DispCmd`, carrying exactly the
variants client.rs matches plus `Unknown` (which, having no arm of its own,
reaches the catch-all `_` arm). -/

/-- The decoded-command type as matched by `handle_network_events` in
client.rs. -/
inductive DispCmd
  | Join (chan : String)
  | PrivMsg (target : MsgTarget) (msg : String)
  | Part (chan msg : String)
  | Nick (nick : String)
  | Notice (msg : String)
  | Error (msg : String)
  | RplWelcome (msg : String)
  | RplYourHost (msg : String)
  | RplCreated (msg : String)
  | RplMyInfo (version umodes cmodes cmodes_param : String)
  | RplISupport (msg : String)
  | RplLuserClient (msg : String)
  | RplLuserOp (msg : String)
  | RplLuserUnknown (msg : String)
  | RplLuserChannels (msg : String)
  | RplLuserMe (msg : String)
  | RplLocalUsers (msg : String)
  | RplGlobalUsers (msg : String)
  | NameReply (sym : Char) (chan : String) (nicks : List String)
  | EndOfNames (msg : String)
  | MOTDStart (msg : String)
  | Motd (msg : String)
  | MOTDEnd (msg : String)
  | DisplayedHost (msg : String)
  | Unknown (code : String)
  deriving DecidableEq, Repr

/-- Debug formatting (`{command:?}`) of the command reaching the catch-all
arm (escaping inside the code is not modelled). -/
def debugDispCmd : DispCmd → String
  | DispCmd.Unknown code => "Unknown(\"" ++ code ++ "\")"
  | _ => "<cmd>"

/-- The `Event::Msg` branch of `handle_network_events` from client.rs: the
per-event mutation of the conversation model (the trailing `tui.draw()` has
no model state).  `Join`, `Part` and `Nick` arms are `if let` without an
`else`: a non-`User` prefix falls through with no effect at all. -/
def handleEvent (serv_name : String) (pf : Option Pfx) (command : DispCmd)
    (ui : InnerUI) : InnerUI :=
  match command with
  | DispCmd.PrivMsg target msg =>
    match pf with
    | some (Pfx.User nick _ _) =>
      ui.add_msg serv_name target ("<" ++ nick ++ "> " ++ msg)
    | some (Pfx.Server serv) =>
      ui.add_serv_msg serv_name ("[" ++ serv ++ "] " ++ msg)
    | none =>
      ui.dbg ("[" ++ serv_name ++ "] PRIVMSG with no prefix \"" ++ msg ++ "\"")
  | DispCmd.Join chan =>
    match pf with
    | some (Pfx.User nick user host) =>
      ui.add_msg serv_name (MsgTarget.Chan chan)
        (nick ++ " (" ++ user ++ "@" ++ host ++ ") joined " ++ chan)
    | _ => ui
  | DispCmd.Part chan msg =>
    match pf with
    | some (Pfx.User nick user host) =>
      let line :=
        if msg = "" then
          nick ++ " (" ++ user ++ "@" ++ host ++ ") left " ++ chan
        else
          nick ++ " (" ++ user ++ "@" ++ host ++ ") left " ++ chan ++
            " (" ++ msg ++ ")"
      ui.add_msg serv_name (MsgTarget.Chan chan) line
    | _ => ui
  | DispCmd.Nick nick =>
    match pf with
    | some (Pfx.User old_nick _ _) =>
      ui.add_msg serv_name (MsgTarget.Serv serv_name)
        (old_nick ++ " is now known as " ++ nick)
    | _ => ui
  | DispCmd.Notice msg => ui.add_serv_msg serv_name msg
  | DispCmd.Error msg => ui.add_serv_msg serv_name msg
  | DispCmd.RplWelcome msg => ui.add_serv_msg serv_name msg
  | DispCmd.RplYourHost msg => ui.add_serv_msg serv_name msg
  | DispCmd.RplCreated msg => ui.add_serv_msg serv_name msg
  | DispCmd.RplMyInfo version umodes cmodes cmodes_param =>
    ui.add_serv_msg serv_name
      (version ++ " " ++ umodes ++ " " ++ cmodes ++ " " ++ cmodes_param)
  | DispCmd.RplISupport msg => ui.add_serv_msg serv_name msg
  | DispCmd.RplLuserClient msg => ui.add_serv_msg serv_name msg
  | DispCmd.RplLuserOp msg => ui.add_serv_msg serv_name msg
  | DispCmd.RplLuserUnknown msg => ui.add_serv_msg serv_name msg
  | DispCmd.RplLuserChannels msg => ui.add_serv_msg serv_name msg
  | DispCmd.RplLuserMe msg => ui.add_serv_msg serv_name msg
  | DispCmd.RplLocalUsers msg => ui.add_serv_msg serv_name msg
  | DispCmd.RplGlobalUsers msg => ui.add_serv_msg serv_name msg
  | DispCmd.NameReply sym chan nicks =>
    ui.add_serv_msg serv_name
      (String.mk [sym] ++ " " ++ chan ++ " " ++ joinSpace nicks)
  | DispCmd.EndOfNames msg => ui.add_serv_msg serv_name msg
  | DispCmd.MOTDStart msg => ui.add_serv_msg serv_name msg
  | DispCmd.Motd msg => ui.add_serv_msg serv_name msg
  | DispCmd.MOTDEnd msg => ui.add_serv_msg serv_name msg
  | DispCmd.DisplayedHost msg => ui.add_serv_msg serv_name msg
  | c => ui.dbg ("[" ++ serv_name ++ "] unhandled command " ++ debugDispCmd c)

/-- Total number of history lines across all tabs. -/
def totalLines (ui : InnerUI) : Nat :=
  (ui.tabs.map (fun t => t.lines.length)).sum

/-- The events `handle_network_events` drops without any output: a `Join`,
`Part` or `Nick` whose prefix is absent or is a `Server` prefix (the `if
let Some(Prefix::User ...)` arms have no `else`). -/
def droppedEvent (pf : Option Pfx) : DispCmd → Bool
  | DispCmd.Join _ | DispCmd.Part _ _ | DispCmd.Nick _ =>
    match pf with
    | some (Pfx.User _ _ _) => false
    | _ => true
  | _ => false

/-! ## Helper lemmas -/

theorem findIdxP_lt_length {p : α → Bool} :
    ∀ {l : List α} {i : Nat}, findIdxP p l = some i → i < l.length := by
  intro l
  induction l with
  | nil => intro i h; simp [findIdxP] at h
  | cons a as ih =>
    intro i h
    simp only [findIdxP] at h
    by_cases hpa : p a
    · rw [if_pos hpa] at h
      injection h with h
      simp only [List.length_cons]
      omega
    · rw [if_neg hpa] at h
      rcases Option.map_eq_some'.mp h with ⟨j, hj, hji⟩
      have := ih hj
      simp only [List.length_cons]
      omega

theorem modifyIdx_length (f : α → α) :
    ∀ (n : Nat) (l : List α), (modifyIdx f n l).length = l.length := by
  intro n l
  induction l generalizing n with
  | nil => cases n <;> rfl
  | cons a as ih => cases n <;> simp [modifyIdx, ih]

theorem modifyIdx_head_id {f : Tab → Tab} (hf : ∀ t, (f t).id = t.id)
    (n : Nat) (l : List Tab) :
    ((modifyIdx f n l).head?).map Tab.id = (l.head?).map Tab.id := by
  cases l with
  | nil => cases n <;> rfl
  | cons a as => cases n <;> simp [modifyIdx, hf]

theorem linesSum_modifyIdx_add_line (m : String) :
    ∀ (i : Nat) (l : List Tab), i < l.length →
      ((modifyIdx (fun t => t.add_line m) i l).map
        (fun t => t.lines.length)).sum =
      ((l.map (fun t => t.lines.length)).sum) + 1 := by
  intro i l
  induction l generalizing i with
  | nil => intro h; simp at h
  | cons a as ih =>
    intro h
    cases i with
    | zero => simp [modifyIdx, Tab.add_line]; omega
    | succ j =>
      have hj : j < as.length := by simpa using h
      simp [modifyIdx, ih j hj]
      omega

theorem totalLines_dbg {ui : InnerUI} (hne : ui.tabs ≠ []) (m : String) :
    totalLines (ui.dbg m) = totalLines ui + 1 := by
  have h0 : 0 < ui.tabs.length := List.length_pos.mpr hne
  simp only [totalLines, InnerUI.dbg]
  exact linesSum_modifyIdx_add_line m 0 ui.tabs h0

theorem totalLines_add_msg {ui : InnerUI} (hne : ui.tabs ≠ [])
    (serv : String) (target : MsgTarget) (m : String) :
    totalLines (ui.add_msg serv target m) = totalLines ui + 1 := by
  cases hp : tabPosition (targetTabId serv target) ui.tabs with
  | none =>
    have he : ui.add_msg serv target m = ui.dbg (noTabFound serv target m) := by
      simp [InnerUI.add_msg, hp]
    rw [he, totalLines_dbg hne]
  | some i =>
    have hi : i < ui.tabs.length := findIdxP_lt_length hp
    have he : ui.add_msg serv target m =
        ⟨ui.cur_tab, modifyIdx (fun t => t.add_line m) i ui.tabs⟩ := by
      simp [InnerUI.add_msg, hp]
    rw [he]
    simpa [totalLines] using linesSum_modifyIdx_add_line m i ui.tabs hi

theorem totalLines_add_serv_msg {ui : InnerUI} (hne : ui.tabs ≠ [])
    (serv m : String) :
    totalLines (ui.add_serv_msg serv m) = totalLines ui + 1 :=
  totalLines_add_msg hne serv (MsgTarget.Serv serv) m

/-- The invariant of the conversation model: tabs non-empty, the Debug tab at
index 0, and `cur_tab` a valid index. -/
def Inv (ui : InnerUI) : Prop :=
  ui.tabs ≠ [] ∧ (ui.tabs.head?).map Tab.id = some TabKind.Debug ∧
    ui.cur_tab < ui.tabs.length

theorem inv_modify (ui : InnerUI) (f : Tab → Tab)
    (hf : ∀ t, (f t).id = t.id) (k : Nat) (h : Inv ui) :
    Inv ⟨ui.cur_tab, modifyIdx f k ui.tabs⟩ := by
  obtain ⟨hne, hhead, hcur⟩ := h
  refine ⟨?_, ?_, ?_⟩
  · show modifyIdx f k ui.tabs ≠ []
    intro hnil
    apply hne
    have hl := modifyIdx_length f k ui.tabs
    rw [hnil] at hl
    exact List.length_eq_zero.mp hl.symm
  · show ((modifyIdx f k ui.tabs).head?).map Tab.id = some TabKind.Debug
    rw [modifyIdx_head_id hf]
    exact hhead
  · show ui.cur_tab < (modifyIdx f k ui.tabs).length
    rw [modifyIdx_length]
    exact hcur

theorem inv_dbg {ui : InnerUI} (m : String) (h : Inv ui) : Inv (ui.dbg m) :=
  inv_modify ui (fun t => t.add_line m) (fun _ => rfl) 0 h

theorem inv_applyOp (ui : InnerUI) (op : Op) (h : Inv ui) :
    Inv (applyOp ui op) := by
  obtain ⟨hne, hhead, hcur⟩ := h
  cases op with
  | addTab id =>
    rcases hts : ui.tabs with _ | ⟨t, ts⟩
    · exact absurd hts hne
    · rw [hts] at hhead hcur
      refine ⟨?_, ?_, ?_⟩
      · simp [applyOp, InnerUI.add_tab, hts]
      · simpa [applyOp, InnerUI.add_tab, hts] using hhead
      · simp only [applyOp, InnerUI.add_tab, hts, List.length_append,
          List.length_cons]
        simp only [List.length_cons] at hcur
        omega
  | changeToTab id =>
    show Inv (ui.change_to_tab id)
    rw [InnerUI.change_to_tab]
    cases hp : tabPosition id ui.tabs with
    | some pos => exact ⟨hne, hhead, findIdxP_lt_length hp⟩
    | none => exact inv_dbg _ ⟨hne, hhead, hcur⟩
  | nextTab =>
    exact ⟨hne, hhead, Nat.mod_lt _ (List.length_pos.mpr hne)⟩
  | pushInput c =>
    exact inv_modify ui (fun t => { t with input := t.input.push c })
      (fun _ => rfl) ui.cur_tab ⟨hne, hhead, hcur⟩
  | popInput =>
    exact inv_modify ui (fun t => { t with input := String.mk t.input.data.dropLast })
      (fun _ => rfl) ui.cur_tab ⟨hne, hhead, hcur⟩
  | takeInput =>
    exact inv_modify ui (fun t => { t with input := "" })
      (fun _ => rfl) ui.cur_tab ⟨hne, hhead, hcur⟩
  | addMsg serv target msg =>
    show Inv (ui.add_msg serv target msg)
    rw [InnerUI.add_msg]
    cases hp : tabPosition (targetTabId serv target) ui.tabs with
    | some i =>
      exact inv_modify ui (fun t => t.add_line msg) (fun _ => rfl) i
        ⟨hne, hhead, hcur⟩
    | none => exact inv_dbg _ ⟨hne, hhead, hcur⟩
  | dbg msg => exact inv_dbg _ ⟨hne, hhead, hcur⟩

theorem inv_foldl : ∀ (ops : List Op) (ui : InnerUI), Inv ui →
    Inv (ops.foldl applyOp ui) := by
  intro ops
  induction ops with
  | nil => intro ui h; exact h
  | cons op rest ih => intro ui h; exact ih _ (inv_applyOp ui op h)

/-- The command tokens with a dedicated arm in `parse_cmd`. -/
def recognizedCmds : List String :=
  ["JOIN", "PRIVMSG", "PART", "NOTICE", "001", "002", "003", "004", "005",
   "251", "252", "253", "254", "255", "265", "266", "353", "366", "375",
   "372", "376", "396"]

theorem parse_cmd_unknown (cmd : String) (ps : List String)
    (h : cmd ∉ recognizedCmds) :
    parse_cmd cmd ps = some (ServCmd.Unknown cmd, ps) := by
  simp only [recognizedCmds, List.mem_cons, List.not_mem_nil, or_false,
    not_or] at h
  unfold parse_cmd
  split
  all_goals simp_all

theorem cur_tab_iterate_next (ui : InnerUI)
    (h : ui.cur_tab < ui.tabs.length) :
    ∀ k, (InnerUI.next_tab^[k] ui).tabs = ui.tabs ∧
      (InnerUI.next_tab^[k] ui).cur_tab =
        (ui.cur_tab + k) % ui.tabs.length := by
  intro k
  induction k with
  | zero => exact ⟨rfl, (Nat.mod_eq_of_lt h).symm⟩
  | succ n ih =>
    rw [Function.iterate_succ_apply']
    obtain ⟨hts, hcur⟩ := ih
    constructor
    · simp [InnerUI.next_tab, hts]
    · simp only [InnerUI.next_tab, hts, hcur]
      rw [Nat.mod_add_mod, Nat.add_assoc]

/-- The frame condition of a routing miss in `InnerUI::add_msg`: `cur_tab`
and the tab list's length are unchanged, every tab other than the head is
untouched, the head tab keeps its id and gains exactly the explanatory line,
and no tab with the missing target id appears. -/
def addMsgMissFrame (ui : InnerUI) (serv : String) (target : MsgTarget)
    (msg : String) : Prop :=
  (ui.add_msg serv target msg).cur_tab = ui.cur_tab ∧
  (ui.add_msg serv target msg).tabs.length = ui.tabs.length ∧
  (∀ i, 1 ≤ i → (ui.add_msg serv target msg).tabs.get? i = ui.tabs.get? i) ∧
  ((ui.add_msg serv target msg).tabs.head?).map Tab.lines =
    (ui.tabs.head?).map (fun t => t.lines ++ [noTabFound serv target msg]) ∧
  ((ui.add_msg serv target msg).tabs.head?).map Tab.id =
    (ui.tabs.head?).map Tab.id ∧
  (∀ t ∈ (ui.add_msg serv target msg).tabs, t.id ≠ targetTabId serv target)

/-! ## Claim theorems -/

/-- Claim C1 (code bug): decode is required never to crash on a known
command that lacks an expected parameter position, yet `parse_cmd` indexes
the parameter vector unconditionally and panics: a PRIVMSG line with no
trailing segment leaves `params` empty (`parse_msg` collects parameters only
when some token starts with `:`) and `params[1]` is out of bounds, and
`parse_cmd "JOIN"` with no parameters panics at `params[0]`; a numeric 001
without a trailing segment panics likewise.  `none` is the model of the
uncaught panic — no `MalformedMessage` condition and no degrade to `Unknown`
happens. -/
theorem claim_C1_bug :
    parse_msg "PRIVMSG #chan hello" = none ∧
    parse_cmd "JOIN" [] = none ∧
    parse_msg ":srv 001 nick" = none := by
  decide

/-- Claim C2, counterexample: wire lines whose command token is QUIT, NICK
or ERROR decode to `ServCmd.Unknown` of the raw token, not to a dedicated
variant (the `ServCmd` enum of protocol.rs has no such variants), refuting
the claim that NICK, QUIT and ERROR populate dedicated variants. -/
theorem claim_C2_counterexample :
    (parse_msg ":n!u@h QUIT :bye").map ServMsg.command =
      some (ServCmd.Unknown "QUIT") ∧
    (parse_msg ":n!u@h NICK :m").map ServMsg.command =
      some (ServCmd.Unknown "NICK") ∧
    (parse_msg "ERROR :closing").map ServMsg.command =
      some (ServCmd.Unknown "ERROR") := by
  decide

/-- Claim C2, amended: the decoded-command type has one dedicated variant per
supported command and numeric except NICK, QUIT and ERROR: those three
tokens always decode to `Unknown` with the parameter list passed through,
while JOIN, PART, PRIVMSG, NOTICE and each listed numeric populate their
dedicated variant (witnessed on a well-formed line each). -/
theorem claim_C2_amended :
    (∀ ps, parse_cmd "NICK" ps = some (ServCmd.Unknown "NICK", ps)) ∧
    (∀ ps, parse_cmd "QUIT" ps = some (ServCmd.Unknown "QUIT", ps)) ∧
    (∀ ps, parse_cmd "ERROR" ps = some (ServCmd.Unknown "ERROR", ps)) ∧
    ((parse_msg ":n!u@h JOIN :#c").map ServMsg.command =
      some (ServCmd.Join "#c") ∧
    (parse_msg ":n!u@h PART :#c").map ServMsg.command =
      some (ServCmd.Part "#c" "") ∧
    (parse_msg ":n!u@h PRIVMSG #c :hi there").map ServMsg.command =
      some (ServCmd.PrivMsg (MsgTarget.Chan "#c") "hi there") ∧
    (parse_msg ":n!u@h NOTICE me :note").map ServMsg.command =
      some (ServCmd.Notice "note") ∧
    (parse_msg ":srv 001 me :welcome").map ServMsg.command =
      some (ServCmd.RplWelcome "welcome") ∧
    (parse_msg ":srv 002 me :your host").map ServMsg.command =
      some (ServCmd.RplYourHost "your host") ∧
    (parse_msg ":srv 003 me :created").map ServMsg.command =
      some (ServCmd.RplCreated "created") ∧
    (parse_msg ":srv 004 me s.net v1 abc def :xyz").map ServMsg.command =
      some (ServCmd.RplMyInfo "v1" "abc" "def" "xyz") ∧
    (parse_msg ":srv 005 me A=1 B=2 :are supported").map ServMsg.command =
      some (ServCmd.RplISupport "A=1 B=2 :are supported") ∧
    (parse_msg ":srv 251 me :users info").map ServMsg.command =
      some (ServCmd.RplLuserClient "users info") ∧
    (parse_msg ":srv 252 me 6 :ops online").map ServMsg.command =
      some (ServCmd.RplLuserOp "6 :ops online") ∧
    (parse_msg ":srv 253 me 4 :unknown conns").map ServMsg.command =
      some (ServCmd.RplLuserUnknown "4 :unknown conns") ∧
    (parse_msg ":srv 254 me 9 :chans formed").map ServMsg.command =
      some (ServCmd.RplLuserChannels "9 :chans formed") ∧
    (parse_msg ":srv 255 me :clients info").map ServMsg.command =
      some (ServCmd.RplLuserMe "clients info") ∧
    (parse_msg ":srv 265 me :local users").map ServMsg.command =
      some (ServCmd.RplLocalUsers "local users") ∧
    (parse_msg ":srv 266 me :global users").map ServMsg.command =
      some (ServCmd.RplGlobalUsers "global users") ∧
    (parse_msg ":srv 353 me = #c :@a b").map ServMsg.command =
      some (ServCmd.NameReply '=' "#c" ["@a", "b"]) ∧
    (parse_msg ":srv 366 me #c :End of list.").map ServMsg.command =
      some (ServCmd.EndOfNames "#c End of list.") ∧
    (parse_msg ":srv 375 me :motd start").map ServMsg.command =
      some (ServCmd.MOTDStart "motd start") ∧
    (parse_msg ":srv 372 me :motd line").map ServMsg.command =
      some (ServCmd.MOTD "motd line") ∧
    (parse_msg ":srv 376 me :motd end").map ServMsg.command =
      some (ServCmd.MOTDEnd "motd end") ∧
    (parse_msg ":srv 396 me h.x :is now your displayed host").map
        ServMsg.command =
      some (ServCmd.DisplayedHost "h.x is now your displayed host")) := by
  refine ⟨fun ps => rfl, fun ps => rfl, fun ps => rfl, ?_⟩
  decide

/-- Claim C3, counterexample: a line with an unrecognized command and no
`:`-marked token decodes to `Unknown` with an *empty* parameter list — the
raw parameters "a" and "b" are dropped, not carried unmodified. -/
theorem claim_C3_counterexample :
    parse_msg "FOO a b" = some ⟨none, ServCmd.Unknown "FOO", []⟩ ∧
    parse_msg "FOO a b" ≠ some ⟨none, ServCmd.Unknown "FOO", ["a", "b"]⟩ := by
  decide

/-- Claim C3, amended: for an unrecognized command token, when some
parameter token starts with `:` the decoded `Unknown` carries every earlier
token separately plus the tokens from that point rejoined with single spaces
as one trailing parameter; when no token starts with `:` the parameter list
is empty (the raw parameters are dropped). -/
theorem claim_C3_amended :
    (∀ cmd ts i, startsC cmd ':' = false → cmd ∉ recognizedCmds →
      findIdxP (fun t => startsC t ':') ts = some i →
      parse_msg_toks (cmd :: ts) =
        some ⟨none, ServCmd.Unknown cmd,
          ts.take i ++ [joinSpace (ts.drop i)]⟩) ∧
    (∀ cmd ts, startsC cmd ':' = false → cmd ∉ recognizedCmds →
      (∀ t ∈ ts, startsC t ':' = false) →
      parse_msg_toks (cmd :: ts) = some ⟨none, ServCmd.Unknown cmd, []⟩) := by
  constructor
  · intro cmd ts i h1 h2 h3
    simp [parse_msg_toks, h1, h3, parse_cmd_unknown cmd _ h2]
  · intro cmd ts h1 h2 h3
    simp [parse_msg_toks, h1, findIdxP_eq_none h3, parse_cmd_unknown cmd _ h2]

/-- Witness for the amended claim C3, instantiated at concrete token
lists. -/
theorem claim_C3_witness :
    parse_msg_toks ["FOO", "a", ":b", "c"] =
      some ⟨none, ServCmd.Unknown "FOO", ["a", ":b c"]⟩ ∧
    parse_msg_toks ["BAR", "x", "y"] =
      some ⟨none, ServCmd.Unknown "BAR", []⟩ :=
  ⟨claim_C3_amended.1 "FOO" ["a", ":b", "c"] 1 (by decide) (by decide)
      (by decide),
   claim_C3_amended.2 "BAR" ["x", "y"] (by decide) (by decide) (by decide)⟩

/-- Claim C10: `parse_msg` panics (modelled `none`) whenever the line has no
whitespace-separated token, and whenever its only token is a `:`-marked
prefix; in particular the empty string, a whitespace-only string and a line
consisting solely of a prefix token all panic instead of returning a
`ServMsg`. -/
theorem claim_C10 :
    (∀ s, words s = [] → parse_msg s = none) ∧
    (∀ s t, words s = [t] → startsC t ':' = true → parse_msg s = none) ∧
    parse_msg "" = none ∧
    parse_msg "   " = none ∧
    parse_msg ":irc.example.com" = none := by
  refine ⟨?_, ?_, by decide, by decide, by decide⟩
  · intro s h
    simp [parse_msg, h, parse_msg_toks]
  · intro s t h ht
    rcases hd : t.data with _ | ⟨a, as⟩
    · rw [startsC, hd] at ht
      simp at ht
    · simp only [parse_msg, h, parse_msg_toks, ht, if_true]
      simp only [strip1, hd]
      cases hpf : parse_pfx (String.mk as) <;> simp [hpf, Option.bind]

/-- Witness for claim C10, instantiated at a whitespace-only line and a
prefix-only line. -/
theorem claim_C10_witness :
    parse_msg " \t " = none ∧ parse_msg ":x" = none :=
  ⟨claim_C10.1 " \t " (by decide),
   claim_C10.2.1 ":x" ":x" (by decide) (by decide)⟩

/-- Claim C6 (code bug): the spec maps "/nick rest" to `Nick(rest)`, and
ui.rs matches on a `Cmd::Nick` handler, but the `Cmd` enum of command.rs has
no `Nick` variant and `make_cmd` has no "/nick" arm: the input falls through
the catch-all to `Unsupported`. -/
theorem claim_C6_bug :
    parse_input "/nick alice" =
      Except.ok (Cmd.Unsupported "/nick" "alice") := rfl

/-- Claim C7: the interpreter contract of `parse_input` — non-slash lines
map to `Msg` verbatim; "/connect host" connects while a bare "/connect" and
"/join" fail with their respective messages; "/quit" takes an optional
argument; and every other slash command maps to `Unsupported`, never an
error. -/
theorem claim_C7 :
    (∀ s, startsC s '/' = false → parse_input s = Except.ok (Cmd.Msg s)) ∧
    parse_input "/connect host" = Except.ok (Cmd.Connect "host") ∧
    parse_input "/connect" = Except.error "No server address provided" ∧
    parse_input "/join" = Except.error "No channel name provided" ∧
    parse_input "/quit bye now" = Except.ok (Cmd.Quit "bye now") ∧
    parse_input "/quit" = Except.ok (Cmd.Quit "") ∧
    parse_input "/foo a b" = Except.ok (Cmd.Unsupported "/foo" "a b") ∧
    (∀ c r, c ≠ "/connect" → c ≠ "/join" → c ≠ "/quit" →
      make_cmd c r = Except.ok (Cmd.Unsupported c r)) := by
  refine ⟨?_, rfl, rfl, rfl, rfl, rfl, rfl, ?_⟩
  · intro s h
    simp [parse_input, h]
  · intro c r h1 h2 h3
    simp [make_cmd, h1, h2, h3]

/-- Witness for claim C7, instantiated at a plain message line and an
unsupported slash command. -/
theorem claim_C7_witness :
    parse_input "hello" = Except.ok (Cmd.Msg "hello") ∧
    make_cmd "/x" "y" = Except.ok (Cmd.Unsupported "/x" "y") :=
  ⟨claim_C7.1 "hello" (by decide),
   claim_C7.2.2.2.2.2.2.2 "/x" "y" (by decide) (by decide) (by decide)⟩

/-- Claim C5, counterexample: tab ids are not pairwise distinct on all
reachable states — two `add_tab` calls with the same id (exactly what two
"/connect" commands to the same host perform) leave two tabs with equal
ids. -/
theorem claim_C5_counterexample :
    ((run [Op.addTab (TabKind.Serv "a"),
           Op.addTab (TabKind.Serv "a")]).tabs.map Tab.id =
      [TabKind.Debug, TabKind.Serv "a", TabKind.Serv "a"]) ∧
    ¬ ((run [Op.addTab (TabKind.Serv "a"),
             Op.addTab (TabKind.Serv "a")]).tabs.map Tab.id).Nodup := by
  decide

/-- Claim C5, amended: on every state reachable from the initial state by
any sequence of conversation-model operations, the tab list is non-empty
with the Debug tab at index 0 and `cur_tab` is a valid index; tab-id
distinctness, however, is not an invariant (`add_tab` appends without a
duplicate check). -/
theorem claim_C5_amended (ops : List Op) : Inv (run ops) := by
  apply inv_foldl
  exact ⟨by decide, by decide, by decide⟩

/-- Claim C8: when `add_msg` resolves to a tab id that no current tab
carries, the only mutation is one explanatory line appended to the head
(Debug) tab: `cur_tab`, the number of tabs, every non-head tab and the head
tab's id are unchanged, and no tab with the missing id is created. -/
theorem claim_C8 (ui : InnerUI) (serv : String) (target : MsgTarget)
    (msg : String) (hne : ui.tabs ≠ [])
    (hmiss : ∀ t ∈ ui.tabs, t.id ≠ targetTabId serv target) :
    addMsgMissFrame ui serv target msg := by
  have hpos : tabPosition (targetTabId serv target) ui.tabs = none := by
    apply findIdxP_eq_none
    intro t ht
    exact decide_eq_false (hmiss t ht)
  have he : ui.add_msg serv target msg =
      ui.dbg (noTabFound serv target msg) := by
    simp [InnerUI.add_msg, hpos]
  rcases hts : ui.tabs with _ | ⟨t, ts⟩
  · exact absurd hts hne
  · refine ⟨?_, ?_, ?_, ?_, ?_, ?_⟩
    · rw [he]; rfl
    · rw [he]
      simp [InnerUI.dbg, modifyIdx_length]
    · intro i hi
      rw [he]
      cases i with
      | zero => omega
      | succ j => simp [InnerUI.dbg, hts, modifyIdx]
    · rw [he]
      simp [InnerUI.dbg, hts, modifyIdx, Tab.add_line]
    · rw [he]
      simp [InnerUI.dbg, hts, modifyIdx, Tab.add_line]
    · intro t' ht'
      rw [he] at ht'
      simp only [InnerUI.dbg, hts, modifyIdx, List.mem_cons] at ht'
      rcases ht' with h1 | h1
      · rw [h1]
        exact hmiss t (by rw [hts]; exact List.mem_cons_self t ts)
      · exact hmiss t' (by rw [hts]; exact List.mem_cons_of_mem t h1)

/-- Witness for claim C8: the initial model has no tab for channel "#c" on
server "s"; `add_msg` there only appends the explanatory line to the Debug
tab. -/
theorem claim_C8_witness :
    addMsgMissFrame InnerUI.new "s" (MsgTarget.Chan "#c") "hi" :=
  claim_C8 InnerUI.new "s" (MsgTarget.Chan "#c") "hi" (by decide) (by decide)

/-- Claim C9: from any state whose `cur_tab` is a valid index, applying
`next_tab` once per tab returns `cur_tab` to its original value, and a
single application changes `cur_tab` unless there is exactly one tab. -/
theorem claim_C9 (ui : InnerUI) (h : ui.cur_tab < ui.tabs.length) :
    (InnerUI.next_tab^[ui.tabs.length] ui).cur_tab = ui.cur_tab ∧
    (ui.tabs.length ≠ 1 → (ui.next_tab).cur_tab ≠ ui.cur_tab) := by
  constructor
  · rw [(cur_tab_iterate_next ui h ui.tabs.length).2, Nat.add_mod_right]
    exact Nat.mod_eq_of_lt h
  · intro hne1 heq
    simp only [InnerUI.next_tab] at heq
    rcases Nat.lt_or_ge (ui.cur_tab + 1) ui.tabs.length with hlt | hge
    · rw [Nat.mod_eq_of_lt hlt] at heq
      omega
    · have hx : ui.cur_tab + 1 = ui.tabs.length := by omega
      rw [hx, Nat.mod_self] at heq
      omega

/-- Witness for claim C9 on a two-tab model. -/
theorem claim_C9_witness :
    (InnerUI.next_tab^[(InnerUI.mk 0 [Tab.new TabKind.Debug,
        Tab.new (TabKind.Serv "a")]).tabs.length]
      (InnerUI.mk 0 [Tab.new TabKind.Debug,
        Tab.new (TabKind.Serv "a")])).cur_tab =
      (InnerUI.mk 0 [Tab.new TabKind.Debug,
        Tab.new (TabKind.Serv "a")]).cur_tab ∧
    ((InnerUI.mk 0 [Tab.new TabKind.Debug,
        Tab.new (TabKind.Serv "a")]).tabs.length ≠ 1 →
      ((InnerUI.mk 0 [Tab.new TabKind.Debug,
        Tab.new (TabKind.Serv "a")]).next_tab).cur_tab ≠
      (InnerUI.mk 0 [Tab.new TabKind.Debug,
        Tab.new (TabKind.Serv "a")]).cur_tab) :=
  claim_C9 (InnerUI.mk 0 [Tab.new TabKind.Debug, Tab.new (TabKind.Serv "a")])
    (by decide)

/-- Claim C4, counterexample: a decoded `Join` event with no prefix (wire
line "JOIN :#c") is silently dropped by the dispatcher — the conversation
model is completely unchanged, no diagnostic line is produced — refuting the
claim that such events always yield a diagnostic. -/
theorem claim_C4_counterexample :
    handleEvent "s" none (DispCmd.Join "#c") InnerUI.new = InnerUI.new ∧
    totalLines (handleEvent "s" none (DispCmd.Join "#c") InnerUI.new) =
      totalLines InnerUI.new := by
  decide

/-- Claim C4, amended: every decoded event the dispatcher processes appends
exactly one line somewhere (a target tab, the server tab, or the diagnostic
tab — in particular `Unknown` and unhandled commands always produce a
diagnostic line), except that a `Join`, `Part` or `Nick` whose prefix is
absent or is a `Server` prefix is silently dropped with no output at all. -/
theorem claim_C4_amended (serv : String) (pf : Option Pfx) (c : DispCmd)
    (ui : InnerUI) (hne : ui.tabs ≠ []) :
    totalLines (handleEvent serv pf c ui) =
      totalLines ui + (if droppedEvent pf c then 0 else 1) := by
  cases c with
  | PrivMsg target msg =>
    rcases pf with _ | p
    · simp [handleEvent, droppedEvent, totalLines_dbg hne]
    · rcases p with s | ⟨n, u, h⟩
      · simp [handleEvent, droppedEvent, totalLines_add_serv_msg hne]
      · simp [handleEvent, droppedEvent, totalLines_add_msg hne]
  | Join chan =>
    rcases pf with _ | p
    · simp [handleEvent, droppedEvent]
    · rcases p with s | ⟨n, u, h⟩
      · simp [handleEvent, droppedEvent]
      · simp [handleEvent, droppedEvent, totalLines_add_msg hne]
  | Part chan msg =>
    rcases pf with _ | p
    · simp [handleEvent, droppedEvent]
    · rcases p with s | ⟨n, u, h⟩
      · simp [handleEvent, droppedEvent]
      · simp [handleEvent, droppedEvent, totalLines_add_msg hne]
  | Nick nick =>
    rcases pf with _ | p
    · simp [handleEvent, droppedEvent]
    · rcases p with s | ⟨n, u, h⟩
      · simp [handleEvent, droppedEvent]
      · simp [handleEvent, droppedEvent, totalLines_add_msg hne]
  | Notice msg => simp [handleEvent, droppedEvent, totalLines_add_serv_msg hne]
  | Error msg => simp [handleEvent, droppedEvent, totalLines_add_serv_msg hne]
  | RplWelcome msg =>
    simp [handleEvent, droppedEvent, totalLines_add_serv_msg hne]
  | RplYourHost msg =>
    simp [handleEvent, droppedEvent, totalLines_add_serv_msg hne]
  | RplCreated msg =>
    simp [handleEvent, droppedEvent, totalLines_add_serv_msg hne]
  | RplMyInfo v um cm cp =>
    simp [handleEvent, droppedEvent, totalLines_add_serv_msg hne]
  | RplISupport msg =>
    simp [handleEvent, droppedEvent, totalLines_add_serv_msg hne]
  | RplLuserClient msg =>
    simp [handleEvent, droppedEvent, totalLines_add_serv_msg hne]
  | RplLuserOp msg =>
    simp [handleEvent, droppedEvent, totalLines_add_serv_msg hne]
  | RplLuserUnknown msg =>
    simp [handleEvent, droppedEvent, totalLines_add_serv_msg hne]
  | RplLuserChannels msg =>
    simp [handleEvent, droppedEvent, totalLines_add_serv_msg hne]
  | RplLuserMe msg =>
    simp [handleEvent, droppedEvent, totalLines_add_serv_msg hne]
  | RplLocalUsers msg =>
    simp [handleEvent, droppedEvent, totalLines_add_serv_msg hne]
  | RplGlobalUsers msg =>
    simp [handleEvent, droppedEvent, totalLines_add_serv_msg hne]
  | NameReply sym chan nicks =>
    simp [handleEvent, droppedEvent, totalLines_add_serv_msg hne]
  | EndOfNames msg =>
    simp [handleEvent, droppedEvent, totalLines_add_serv_msg hne]
  | MOTDStart msg =>
    simp [handleEvent, droppedEvent, totalLines_add_serv_msg hne]
  | Motd msg => simp [handleEvent, droppedEvent, totalLines_add_serv_msg hne]
  | MOTDEnd msg =>
    simp [handleEvent, droppedEvent, totalLines_add_serv_msg hne]
  | DisplayedHost msg =>
    simp [handleEvent, droppedEvent, totalLines_add_serv_msg hne]
  | Unknown code => simp [handleEvent, droppedEvent, totalLines_dbg hne]

/-- Witness for the amended claim C4: an `Unknown` event on the initial
model produces exactly one (diagnostic) line. -/
theorem claim_C4_witness :
    totalLines (handleEvent "s" none (DispCmd.Unknown "X") InnerUI.new) =
      totalLines InnerUI.new +
        (if droppedEvent none (DispCmd.Unknown "X") then 0 else 1) :=
  claim_C4_amended "s" none (DispCmd.Unknown "X") InnerUI.new (by decide)

end Irc
